import Mathlib

/-!
# FinSight AI — verification of the Parse–Extract pipeline core

A shallow embedding of the schema translator, the save/extract
orchestration of `SchemaEditorTable`, the status derivation of
`FolderWorkspace`, the grounding overlay of `Preview`, the status
probes of `lib/api.ts`, and (modelled from the spec, since the backend
router is not part of the frontend sources) the amount normalizer and
the extract endpoint contract.
-/

namespace FinSight

/-! ## JSON documents

The extraction schema travels as parsed JSON (`Record<string, unknown>`
on the TypeScript side).  Objects are association lists in insertion
order, which is the order `Object.entries` enumerates. -/

inductive Json where
  | null
  | bool (b : Bool)
  | num (n : Int)
  | str (s : String)
  | arr (elems : List Json)
  | obj (entries : List (String × Json))
  deriving Repr

/-- Property access `x[k]` / `x.k`: `none` models JavaScript `undefined`
(absent key, or access on a non-object). -/
def jsGetEntries : List (String × Json) → String → Option Json
  | [], _ => none
  | (k', v) :: rest, k => if k' == k then some v else jsGetEntries rest k

def Json.get (j : Json) (k : String) : Option Json :=
  match j with
  | .obj kvs => jsGetEntries kvs k
  | _ => none

/-- JavaScript truthiness of a JSON value. -/
def Json.truthy : Json → Bool
  | .null => false
  | .bool b => b
  | .num n => n != 0
  | .str s => s != ""
  | .arr _ => true
  | .obj _ => true

/-- The numeric value of a digit string, `none` when empty or not all
digits. -/
def digitsToNat? (cs : List Char) : Option Nat :=
  if cs.isEmpty then none
  else if cs.all Char.isDigit then
    some (cs.foldl (fun acc c => acc * 10 + (c.toNat - '0'.toNat)) 0)
  else none

/-- An ECMAScript array-index key: the canonical base-10 numeral of an
integer below 2^32 − 1 (so `"0"` and `"42"` qualify, `"00"` and `"1e2"`
do not).  Property enumeration lists these keys first. -/
def isArrayIndexKey (s : String) : Bool :=
  let cs := s.toList
  !cs.isEmpty && cs.all Char.isDigit &&
    (cs.length == 1 || cs.headD ' ' != '0') &&
    decide ((digitsToNat? cs).getD 0 < 4294967295)

def keyNum (s : String) : Nat := (digitsToNat? s.toList).getD 0

def insertIndexEntry (kv : String × Json) :
    List (String × Json) → List (String × Json)
  | [] => [kv]
  | x :: xs =>
    if keyNum kv.1 ≤ keyNum x.1 then kv :: x :: xs
    else x :: insertIndexEntry kv xs

/-- ECMAScript own-property enumeration order for an object: array-index
keys first in ascending numeric order, then the remaining string keys in
insertion order. -/
def jsObjEntries (kvs : List (String × Json)) : List (String × Json) :=
  ((kvs.filter (fun kv => isArrayIndexKey kv.1)).foldr insertIndexEntry []) ++
    kvs.filter (fun kv => !isArrayIndexKey kv.1)

/-- `Object.entries` of a JSON value: an object's entries in enumeration
order; a string or array contributes its index entries (e.g.
`Object.entries("ab")` is `[["0","a"],["1","b"]]`); nothing for the
other primitives. -/
def Json.entriesOf : Json → List (String × Json)
  | .obj kvs => jsObjEntries kvs
  | .str s => s.toList.enum.map (fun p => (Nat.repr p.1, Json.str (String.mk [p.2])))
  | .arr xs => xs.enum.map (fun p => (Nat.repr p.1, p.2))
  | _ => []

/-- Property assignment `o[k] = v`: updates the value in place if the
key exists, else appends the key. -/
def jsAssign (kvs : List (String × Json)) (k : String) (v : Json) :
    List (String × Json) :=
  if kvs.any (fun kv => kv.1 == k) then
    kvs.map (fun kv => if kv.1 == k then (kv.1, v) else kv)
  else
    kvs ++ [(k, v)]

/-! ## Schema fields (`SchemaEditorTable.tsx`)

`interface SchemaField { name; type; description; required }` — `type`
is a string at runtime (`'string' | 'number' | 'boolean'`). -/

structure SchemaField where
  name : String
  type : String
  description : String
  required : Bool
  deriving Repr, DecidableEq

/-- `DEFAULT_FIELDS` — default fields for bank statement extraction. -/
def DEFAULT_FIELDS : List SchemaField :=
  [ ⟨"date", "string", "Date of the transaction (e.g., DD/MM/YYYY)", true⟩,
    ⟨"amount", "string", "Transaction amount with sign (+/-)", true⟩,
    ⟨"balance", "string", "Account balance after transaction", false⟩,
    ⟨"remarks", "string", "Description or narration of the transaction", false⟩,
    ⟨"transactionId", "string", "Reference number or transaction ID", false⟩ ]

/-! ## `fieldsToJsonSchema` -/

/-- The type-appropriate default recorded per property:
`field.type === 'string' ? '' : (field.type === 'number' ? 0 : false)`. -/
def fieldDefault (t : String) : Json :=
  if t == "string" then .str ""
  else if t == "number" then .num 0
  else .bool false

def fieldToProp (f : SchemaField) : Json :=
  .obj [ ("type", .str f.type),
         ("description", .str f.description),
         ("default", fieldDefault f.type) ]

/-- The `properties` object accumulated by
`fields.forEach(field => { properties[field.name] = {...} })`. -/
def buildProps (fields : List SchemaField) : List (String × Json) :=
  fields.foldl (fun acc f => jsAssign acc f.name (fieldToProp f)) []

/-- The `required` array accumulated by
`if (field.required) required.push(field.name)`. -/
def buildRequired (fields : List SchemaField) : List String :=
  fields.foldl (fun acc f => if f.required then acc ++ [f.name] else acc) []

/-- `fieldsToJsonSchema`: wraps the fields in the transactions array
structure expected by the backend.  `required` is present only when
nonempty (`required.length > 0 ? required : undefined`; an `undefined`
value and an absent key read back identically through `|| []`). -/
def fieldsToJsonSchema (fields : List SchemaField) : Json :=
  let properties := buildProps fields
  let required := buildRequired fields
  Json.obj
    [ ("type", .str "object"),
      ("properties", .obj
        [ ("transactions", .obj
            [ ("type", .str "array"),
              ("description", .str
                "List of individual transaction records from the statement tables."),
              ("items", .obj
                ([ ("type", .str "object"),
                   ("properties", .obj properties) ] ++
                  (if required.isEmpty then []
                   else [("required", .arr (required.map Json.str))]))) ]) ]),
      ("required", .arr [.str "transactions"]),
      ("$defs", .obj []) ]

/-! ## `jsonSchemaToFields` -/

/-- `(propObj.type as 'string'|'number'|'boolean') || 'string'`.  The
cast is unchecked; the typed model carries the declared string union,
so only string-valued `type` entries are representable. -/
def readFieldType (propObj : Json) : String :=
  match propObj.get "type" with
  | some (.str s) => if s == "" then "string" else s
  | _ => "string"

/-- `(propObj.description as string) || ''`. -/
def readFieldDescription (propObj : Json) : String :=
  match propObj.get "description" with
  | some (.str s) => s
  | _ => ""

/-- `(items.required as string[]) || []`, consumed through
`.includes(name)`: only string elements can ever equal a field name. -/
def readRequiredNames (items : Json) : List String :=
  match items.get "required" with
  | some (.arr xs) => xs.filterMap (fun x => match x with
      | Json.str s => some s
      | _ => none)
  | _ => []

/-- `jsonSchemaToFields`: navigates to the transaction item properties
and rebuilds the field table; any failure of the expected shape falls
back to `DEFAULT_FIELDS`. -/
def jsonSchemaToFields (schema : Json) : List SchemaField :=
  match (schema.get "properties").bind (fun p => p.get "transactions") with
  | none => DEFAULT_FIELDS
  | some t =>
    if !t.truthy then DEFAULT_FIELDS
    else
      match t.get "items" with
      | none => DEFAULT_FIELDS
      | some items =>
        match items.get "properties" with
        | none => DEFAULT_FIELDS
        | some itemProps =>
          if !itemProps.truthy then DEFAULT_FIELDS
          else
            let requiredNames := readRequiredNames items
            let fields := itemProps.entriesOf.map (fun kv =>
              SchemaField.mk kv.1 (readFieldType kv.2)
                (readFieldDescription kv.2) (requiredNames.contains kv.1))
            if fields.length > 0 then fields else DEFAULT_FIELDS

/-- The validity invariant the spec places on a field list before save
or extract: nonempty names, names unique (case-sensitive), type one of
the three offered by the editor. -/
def validField (f : SchemaField) : Bool :=
  f.name != "" &&
    (f.type == "string" || f.type == "number" || f.type == "boolean")

def validFields (fs : List SchemaField) : Bool :=
  fs.all validField && decide (fs.map (fun f => f.name)).Nodup

/-! ## Round-trip lemmas -/

lemma jsAssign_of_not_mem (kvs : List (String × Json)) (k : String) (v : Json)
    (h : ∀ kv ∈ kvs, kv.1 ≠ k) : jsAssign kvs k v = kvs ++ [(k, v)] := by
  have hany : kvs.any (fun kv => kv.1 == k) = false := by
    simp only [List.any_eq_false]
    intro kv hkv
    simpa using h kv hkv
  simp [jsAssign, hany]

lemma foldl_assign_eq_map (fs : List SchemaField) :
    ∀ (acc : List (String × Json)),
      (∀ f ∈ fs, ∀ kv ∈ acc, kv.1 ≠ f.name) →
      (fs.map (fun f => f.name)).Nodup →
      fs.foldl (fun a f => jsAssign a f.name (fieldToProp f)) acc =
        acc ++ fs.map (fun f => (f.name, fieldToProp f)) := by
  induction fs with
  | nil => intro acc _ _; simp
  | cons f rest ih =>
    intro acc hdisj hnd
    have hstep : jsAssign acc f.name (fieldToProp f) = acc ++ [(f.name, fieldToProp f)] :=
      jsAssign_of_not_mem acc f.name (fieldToProp f)
        (fun kv hkv => hdisj f (List.mem_cons_self f rest) kv hkv)
    rw [List.map_cons] at hnd
    obtain ⟨hnotin, hnd'⟩ := List.nodup_cons.mp hnd
    have hdisj' : ∀ g ∈ rest, ∀ kv ∈ acc ++ [(f.name, fieldToProp f)], kv.1 ≠ g.name := by
      intro g hg kv hkv
      rcases List.mem_append.mp hkv with hkv | hkv
      · exact hdisj g (List.mem_cons_of_mem f hg) kv hkv
      · have : kv = (f.name, fieldToProp f) := by simpa using hkv
        subst this
        intro hcontra
        have hfg : f.name = g.name := hcontra
        exact hnotin (by
          rw [hfg]
          exact List.mem_map_of_mem (fun f => f.name) hg)
    calc (f :: rest).foldl (fun a g => jsAssign a g.name (fieldToProp g)) acc
        = rest.foldl (fun a g => jsAssign a g.name (fieldToProp g))
            (acc ++ [(f.name, fieldToProp f)]) := by
          simp [List.foldl_cons, hstep]
      _ = (acc ++ [(f.name, fieldToProp f)]) ++ rest.map (fun f => (f.name, fieldToProp f)) :=
          ih _ hdisj' hnd'
      _ = acc ++ (f :: rest).map (fun f => (f.name, fieldToProp f)) := by
          simp

lemma buildProps_eq_map (fs : List SchemaField)
    (hnd : (fs.map (fun f => f.name)).Nodup) :
    buildProps fs = fs.map (fun f => (f.name, fieldToProp f)) := by
  have := foldl_assign_eq_map fs [] (by intro f _ kv hkv; simp at hkv) hnd
  simpa [buildProps] using this

lemma foldl_required_eq (fs : List SchemaField) :
    ∀ acc : List String,
      fs.foldl (fun a f => if f.required then a ++ [f.name] else a) acc =
        acc ++ (fs.filter (fun f => f.required)).map (fun f => f.name) := by
  induction fs with
  | nil => intro acc; simp
  | cons f rest ih =>
    intro acc
    by_cases hr : f.required
    · simp [List.foldl_cons, hr, ih, List.filter_cons]
    · simp [List.foldl_cons, hr, ih, List.filter_cons]

lemma buildRequired_eq (fs : List SchemaField) :
    buildRequired fs = (fs.filter (fun f => f.required)).map (fun f => f.name) := by
  simpa [buildRequired] using foldl_required_eq fs []

lemma filterMap_str_map (l : List String) :
    (l.map Json.str).filterMap (fun x => match x with
      | Json.str s => some s
      | _ => none) = l := by
  induction l with
  | nil => rfl
  | cons s rest ih => simp [ih]

/-- Re-reading the schema's `required` array gives back the pushed
names, whether the key was written (nonempty) or omitted (empty). -/
lemma readRequiredNames_items (props : List (String × Json)) (req : List String) :
    readRequiredNames (.obj
      ([ ("type", .str "object"), ("properties", .obj props) ] ++
        (if req.isEmpty then []
         else [("required", .arr (req.map Json.str))]))) = req := by
  cases req with
  | nil => rfl
  | cons r rs => exact filterMap_str_map (r :: rs)

/-- Navigating the document built by `fieldsToJsonSchema` lands on the
written `properties` and `required` lists. -/
lemma jsonSchemaToFields_nav (props : List (String × Json))
    (tail : List (String × Json)) :
    jsonSchemaToFields (Json.obj
      [ ("type", .str "object"),
        ("properties", .obj
          [ ("transactions", .obj
              [ ("type", .str "array"),
                ("description", .str
                  "List of individual transaction records from the statement tables."),
                ("items", .obj
                  ([ ("type", .str "object"), ("properties", .obj props) ] ++ tail)) ]) ]),
        ("required", .arr [.str "transactions"]),
        ("$defs", .obj []) ]) =
      (if ((jsObjEntries props).map (fun kv =>
            SchemaField.mk kv.1 (readFieldType kv.2) (readFieldDescription kv.2)
              ((readRequiredNames (.obj
                ([ ("type", .str "object"), ("properties", .obj props) ] ++ tail))).contains
                kv.1))).length > 0
       then (jsObjEntries props).map (fun kv =>
            SchemaField.mk kv.1 (readFieldType kv.2) (readFieldDescription kv.2)
              ((readRequiredNames (.obj
                ([ ("type", .str "object"), ("properties", .obj props) ] ++ tail))).contains
                kv.1))
       else DEFAULT_FIELDS) := rfl

/-- Enumeration is plain insertion order when no key is an array
index. -/
lemma jsObjEntries_of_no_index (kvs : List (String × Json))
    (h : ∀ kv ∈ kvs, isArrayIndexKey kv.1 = false) :
    jsObjEntries kvs = kvs := by
  have hidx : kvs.filter (fun kv => isArrayIndexKey kv.1) = [] :=
    List.filter_eq_nil_iff.mpr (by intro kv hkv; simp [h kv hkv])
  have hrest : kvs.filter (fun kv => !isArrayIndexKey kv.1) = kvs :=
    List.filter_eq_self.mpr (by intro kv hkv; simp [h kv hkv])
  simp [jsObjEntries, hidx, hrest]

lemma name_inj_of_nodup {fs : List SchemaField}
    (h : (fs.map (fun f => f.name)).Nodup) {f g : SchemaField}
    (hf : f ∈ fs) (hg : g ∈ fs) (hname : f.name = g.name) : f = g :=
  List.inj_on_of_nodup_map h hf hg hname

lemma contains_required_names {fs : List SchemaField}
    (hnd : (fs.map (fun f => f.name)).Nodup) {f : SchemaField} (hf : f ∈ fs) :
    ((fs.filter (fun f => f.required)).map (fun f => f.name)).contains f.name =
      f.required := by
  by_cases hr : f.required
  · have hmem : f.name ∈ (fs.filter (fun f => f.required)).map (fun f => f.name) :=
      List.mem_map_of_mem _ (List.mem_filter.mpr ⟨hf, by simpa using hr⟩)
    simp [hr, List.elem_iff, hmem]
  · have hnmem : f.name ∉ (fs.filter (fun f => f.required)).map (fun f => f.name) := by
      intro hmem
      rcases List.mem_map.mp hmem with ⟨g, hgmem, hgname⟩
      rcases List.mem_filter.mp hgmem with ⟨hgfs, hgreq⟩
      have : g = f := name_inj_of_nodup hnd hgfs hf hgname
      subst this
      exact hr (by simpa using hgreq)
    simp [hr, List.elem_iff, hnmem]

lemma readFieldType_fieldToProp (f : SchemaField) (h : validField f = true) :
    readFieldType (fieldToProp f) = f.type := by
  have h3 : f.type = "string" ∨ f.type = "number" ∨ f.type = "boolean" := by
    simp [validField] at h
    tauto
  have hne : (f.type == "") = false := by
    rcases h3 with h' | h' | h' <;> simp [h']
  show (if f.type == "" then "string" else f.type) = f.type
  simp [hne]

lemma readFieldDescription_fieldToProp (f : SchemaField) :
    readFieldDescription (fieldToProp f) = f.description := rfl

/-- C1 (amended): for every nonempty valid field list — names nonempty
and unique, types among string/number/boolean — in which no field name
is an array-index string, translating to the extraction-schema document
and back is the identity, order preserved.  (The empty list reads back
as `DEFAULT_FIELDS`, and an array-index name such as `"0"` is enumerated
ahead of the other keys, reordering the fields.) -/
theorem C1_roundtrip_nonempty (fs : List SchemaField)
    (hv : validFields fs = true) (hne : fs ≠ [])
    (hidx : ∀ f ∈ fs, isArrayIndexKey f.name = false) :
    jsonSchemaToFields (fieldsToJsonSchema fs) = fs := by
  have hall : ∀ f ∈ fs, validField f = true := by
    have := (Bool.and_eq_true_iff.mp hv).1
    simpa [List.all_eq_true] using this
  have hnd : (fs.map (fun f => f.name)).Nodup := by
    have := (Bool.and_eq_true_iff.mp hv).2
    simpa using this
  have hnav := jsonSchemaToFields_nav (buildProps fs)
    (if (buildRequired fs).isEmpty then []
     else [("required", .arr ((buildRequired fs).map Json.str))])
  have hread := readRequiredNames_items (buildProps fs) (buildRequired fs)
  have hgoal : jsonSchemaToFields (fieldsToJsonSchema fs) =
      (if ((jsObjEntries (buildProps fs)).map (fun kv =>
            SchemaField.mk kv.1 (readFieldType kv.2) (readFieldDescription kv.2)
              ((buildRequired fs).contains kv.1))).length > 0
       then (jsObjEntries (buildProps fs)).map (fun kv =>
            SchemaField.mk kv.1 (readFieldType kv.2) (readFieldDescription kv.2)
              ((buildRequired fs).contains kv.1))
       else DEFAULT_FIELDS) := by
    rw [show jsonSchemaToFields (fieldsToJsonSchema fs) = _ from hnav, hread]
  have hkvidx : ∀ kv ∈ fs.map (fun f => (f.name, fieldToProp f)),
      isArrayIndexKey kv.1 = false := by
    intro kv hkv
    rcases List.mem_map.mp hkv with ⟨f, hf, rfl⟩
    exact hidx f hf
  rw [hgoal, buildProps_eq_map fs hnd, jsObjEntries_of_no_index _ hkvidx,
    buildRequired_eq fs, List.map_map]
  have hpt : ∀ f ∈ fs,
      ((fun kv : String × Json =>
          SchemaField.mk kv.1 (readFieldType kv.2) (readFieldDescription kv.2)
            (((fs.filter (fun f => f.required)).map (fun f => f.name)).contains kv.1)) ∘
        fun f => (f.name, fieldToProp f)) f = f := by
    intro f hf
    show SchemaField.mk f.name (readFieldType (fieldToProp f))
        (readFieldDescription (fieldToProp f))
        (((fs.filter (fun f => f.required)).map (fun f => f.name)).contains f.name) = f
    rw [readFieldType_fieldToProp f (hall f hf), readFieldDescription_fieldToProp,
      contains_required_names hnd hf]
  have hmap : fs.map ((fun kv : String × Json =>
        SchemaField.mk kv.1 (readFieldType kv.2) (readFieldDescription kv.2)
          (((fs.filter (fun f => f.required)).map (fun f => f.name)).contains kv.1)) ∘
      fun f => (f.name, fieldToProp f)) = fs := by
    calc fs.map _ = fs.map id := List.map_congr_left hpt
      _ = fs := List.map_id fs
  rw [hmap]
  cases fs with
  | nil => exact absurd rfl hne
  | cons f rest => simp

/-- C1 counterexample: two valid field lists that do not round-trip.
The empty list (vacuously valid) reads back as `DEFAULT_FIELDS`, and
the list named `"b"` then `"0"` reads back with `"0"` first, because
property enumeration lists the array-index key ahead of the insertion
order. -/
theorem C1_roundtrip_counterexample :
    (validFields [] = true ∧
      jsonSchemaToFields (fieldsToJsonSchema []) ≠ ([] : List SchemaField)) ∧
    (validFields [⟨"b", "string", "", false⟩, ⟨"0", "string", "", false⟩] = true ∧
      jsonSchemaToFields (fieldsToJsonSchema
          [⟨"b", "string", "", false⟩, ⟨"0", "string", "", false⟩]) =
        [⟨"0", "string", "", false⟩, ⟨"b", "string", "", false⟩] ∧
      jsonSchemaToFields (fieldsToJsonSchema
          [⟨"b", "string", "", false⟩, ⟨"0", "string", "", false⟩]) ≠
        [⟨"b", "string", "", false⟩, ⟨"0", "string", "", false⟩]) := by
  decide

/-- C1 witness: the amended round-trip at the concrete default field
list. -/
theorem C1_roundtrip_nonempty_witness :
    validFields DEFAULT_FIELDS = true ∧ DEFAULT_FIELDS ≠ [] ∧
      (∀ f ∈ DEFAULT_FIELDS, isArrayIndexKey f.name = false) ∧
      jsonSchemaToFields (fieldsToJsonSchema DEFAULT_FIELDS) = DEFAULT_FIELDS :=
  ⟨by decide, by decide, by decide,
    C1_roundtrip_nonempty DEFAULT_FIELDS (by decide) (by decide) (by decide)⟩

/-! ## Save/extract orchestration (`SchemaEditorTable`)

Each handler is a step from the component state to a new state together
with the remote calls it issues; toast messages for validation failures
are recorded. -/

inductive ApiCall where
  | putSchema (folderId filename : String) (schema : Json)
  | deleteSchema (folderId filename : String)
  | extract (folderId filename : String) (useCustomSchema : Bool)
  | parseCall (folderId filename : String) (forceReparse : Bool)
  deriving Repr

def ApiCall.isParseCall : ApiCall → Bool
  | .parseCall .. => true
  | _ => false

def ApiCall.isPutSchema : ApiCall → Bool
  | .putSchema .. => true
  | _ => false

structure EditorState where
  folderId : String
  filename : String
  fields : List SchemaField
  hasChanges : Bool
  showSavePrompt : Bool
  isCustom : Bool
  deriving Repr

structure StepResult where
  state : EditorState
  calls : List ApiCall
  toastError : Option String
  deriving Repr

/-- JavaScript `String.prototype.trim`: strips leading and trailing
whitespace. -/
def jsTrim (s : String) : String :=
  String.mk (((s.toList.dropWhile Char.isWhitespace).reverse.dropWhile
    Char.isWhitespace).reverse)

/-- `handleSave`: validates field names before any remote call; a valid
list is sent through `updateExtractionSchema` as the JSON schema. -/
def handleSave (s : EditorState) : StepResult :=
  if s.fields.any (fun f => jsTrim f.name == "") then
    ⟨s, [], some "All fields must have a name"⟩
  else if s.fields.length != ((s.fields.map (fun f => f.name)).dedup).length then
    ⟨s, [], some "Field names must be unique"⟩
  else
    ⟨{ s with isCustom := true, hasChanges := false },
      [.putSchema s.folderId s.filename (fieldsToJsonSchema s.fields)], none⟩

/-- `handleExtract`: with unsaved changes, only opens the save prompt;
otherwise calls `extractTransactions(folderId, filename, true)`. -/
def handleExtract (s : EditorState) : StepResult :=
  if s.hasChanges then
    ⟨{ s with showSavePrompt := true }, [], none⟩
  else
    ⟨s, [.extract s.folderId s.filename true], none⟩

/-- The three buttons of the save-confirmation modal. -/
inductive Resolution where
  | cancel
  | extractWithoutSaving
  | saveAndExtract

/-- The modal's resolutions: Cancel closes the prompt; Extract Without
Saving closes it and extracts; Save and Extract runs `handleSave` and
then extracts. -/
def resolve (s : EditorState) (r : Resolution) : StepResult :=
  match r with
  | .cancel => ⟨{ s with showSavePrompt := false }, [], none⟩
  | .extractWithoutSaving =>
      ⟨{ s with showSavePrompt := false },
        [.extract s.folderId s.filename true], none⟩
  | .saveAndExtract =>
      let afterSave := handleSave { s with showSavePrompt := false }
      ⟨afterSave.state, afterSave.calls ++ [.extract s.folderId s.filename true],
        afterSave.toastError⟩

/-- Modelled from the spec: the backend extract endpoint
(`backend/app/routers/process.py`) is not among the frontend sources.
Per §6 and the repository docs it "uses custom schema if saved,
otherwise default"; the extract request carries only the
`use_custom_schema` flag, never a schema document. -/
def schemaUsedForExtract (defaultSchema : Json) (savedCustomSchema : Option Json)
    (useCustomSchema : Bool) : Json :=
  if useCustomSchema then savedCustomSchema.getD defaultSchema else defaultSchema

/-- Modelled from the spec: per-document backend storage —
`parsed/{folder}/{file}.json`, `schemas/{folder}/{file}.json`, and the
processed output; the backend router itself is not among the sources. -/
structure BackendDoc where
  parseCache : Option Json
  customSchema : Option Json
  outputCsv : Option (Json × Json)
  deriving Repr

/-- Modelled from the spec: backend extract "must read from the existing
parse cache; never parses as a side effect" (§6) — with no cached parse
artifact it fails rather than parsing; a success records which cached
artifact and which schema produced the output. -/
def serveExtract (defaultSchema : Json) (b : BackendDoc) (useCustomSchema : Bool) :
    BackendDoc × Bool :=
  match b.parseCache with
  | none => (b, false)
  | some cache =>
      let used := schemaUsedForExtract defaultSchema b.customSchema useCustomSchema
      ({ b with outputCsv := some (cache, used) }, true)

/-- The field names recorded under the nested
`properties.transactions.items.properties` object of a schema document. -/
def itemPropNames (schema : Json) : List String :=
  match (schema.get "properties").bind (fun p => p.get "transactions") with
  | none => []
  | some t =>
    match t.get "items" with
    | none => []
    | some items =>
      match items.get "properties" with
      | some (.obj kvs) => kvs.map (fun kv => kv.1)
      | _ => []

/-- C4: a field list containing an empty name or a duplicate name
(case-sensitive) is rejected by save with a validation message naming
the violated rule, and no remote call is issued. -/
theorem C4_save_rejects_invalid (s : EditorState)
    (h : (∃ f ∈ s.fields, f.name = "") ∨ ¬ (s.fields.map (fun f => f.name)).Nodup) :
    ∃ msg, (handleSave s).toastError = some msg ∧
      (msg = "All fields must have a name" ∨ msg = "Field names must be unique") ∧
      (handleSave s).calls = [] := by
  by_cases h1 : s.fields.any (fun f => jsTrim f.name == "") = true
  · exact ⟨"All fields must have a name", by simp [handleSave, h1], Or.inl rfl,
      by simp [handleSave, h1]⟩
  · have hdup : ¬ (s.fields.map (fun f => f.name)).Nodup := by
      rcases h with ⟨f, hf, hname⟩ | hdup
      · exact absurd (List.any_eq_true.mpr ⟨f, hf, by rw [hname]; decide⟩) h1
      · exact hdup
    have hlen : ((s.fields.map (fun f => f.name)).dedup).length ≠
        (s.fields.map (fun f => f.name)).length := by
      intro heq
      have hsub := List.dedup_sublist (s.fields.map (fun f => f.name))
      exact hdup ((hsub.eq_of_length heq) ▸
        List.nodup_dedup (s.fields.map (fun f => f.name)))
    have hcond : (s.fields.length !=
        ((s.fields.map (fun f => f.name)).dedup).length) = true := by
      have := List.length_map s.fields (fun f => f.name)
      simp only [bne_iff_ne]
      omega
    exact ⟨"Field names must be unique", by simp [handleSave, h1, hcond], Or.inr rfl,
      by simp [handleSave, h1, hcond]⟩

/-- C4 witness: a concrete duplicate-name list is rejected without a
remote call. -/
theorem C4_save_rejects_invalid_witness :
    ¬ (((EditorState.mk "f1" "doc.pdf"
          [⟨"amount", "string", "", false⟩, ⟨"amount", "string", "", true⟩]
          true false false).fields.map (fun f => f.name)).Nodup) ∧
    ∃ msg, (handleSave (EditorState.mk "f1" "doc.pdf"
          [⟨"amount", "string", "", false⟩, ⟨"amount", "string", "", true⟩]
          true false false)).toastError = some msg ∧
      (msg = "All fields must have a name" ∨ msg = "Field names must be unique") ∧
      (handleSave (EditorState.mk "f1" "doc.pdf"
          [⟨"amount", "string", "", false⟩, ⟨"amount", "string", "", true⟩]
          true false false)).calls = [] :=
  ⟨by decide, C4_save_rejects_invalid _ (Or.inr (by decide))⟩

/-- C3: with unsaved schema edits, requesting extract issues no remote
call and only opens the save prompt; the three resolutions then behave
as offered — cancel issues nothing, extract-without-saving issues
exactly the extract call, and save-and-extract (when the fields pass
validation) persists the schema and then extracts. -/
theorem C3_unsaved_edits_block_extract (s : EditorState)
    (h : s.hasChanges = true) :
    (handleExtract s).calls = [] ∧
    (handleExtract s).state.showSavePrompt = true ∧
    (resolve s .cancel).calls = [] ∧
    (resolve s .extractWithoutSaving).calls = [.extract s.folderId s.filename true] ∧
    (s.fields.any (fun f => jsTrim f.name == "") = false →
      (s.fields.map (fun f => f.name)).Nodup →
      (resolve s .saveAndExtract).calls =
        [.putSchema s.folderId s.filename (fieldsToJsonSchema s.fields),
         .extract s.folderId s.filename true]) := by
  refine ⟨by simp [handleExtract, h], by simp [handleExtract, h], rfl, rfl, ?_⟩
  intro h1 h2
  have hded : ((s.fields.map (fun f => f.name)).dedup) = s.fields.map (fun f => f.name) :=
    List.dedup_eq_self.mpr h2
  have hlen : (s.fields.length !=
      ((s.fields.map (fun f => f.name)).dedup).length) = false := by
    rw [hded, List.length_map]
    simp
  simp [resolve, handleSave, h1, hlen]

/-- C3 witness: the blocked extract and the three resolutions at a
concrete state with unsaved edits. -/
theorem C3_unsaved_edits_block_extract_witness :
    ((EditorState.mk "f1" "doc.pdf" DEFAULT_FIELDS true false false).hasChanges = true) ∧
    ((handleExtract (EditorState.mk "f1" "doc.pdf" DEFAULT_FIELDS true false false)).calls = [] ∧
     (handleExtract (EditorState.mk "f1" "doc.pdf" DEFAULT_FIELDS true false false)).state.showSavePrompt = true ∧
     (resolve (EditorState.mk "f1" "doc.pdf" DEFAULT_FIELDS true false false) .cancel).calls = [] ∧
     (resolve (EditorState.mk "f1" "doc.pdf" DEFAULT_FIELDS true false false) .extractWithoutSaving).calls =
       [.extract "f1" "doc.pdf" true] ∧
     (resolve (EditorState.mk "f1" "doc.pdf" DEFAULT_FIELDS true false false) .saveAndExtract).calls =
       [.putSchema "f1" "doc.pdf" (fieldsToJsonSchema DEFAULT_FIELDS),
        .extract "f1" "doc.pdf" true]) := by
  have h := C3_unsaved_edits_block_extract
    (EditorState.mk "f1" "doc.pdf" DEFAULT_FIELDS true false false) rfl
  exact ⟨rfl, h.1, h.2.1, h.2.2.1, h.2.2.2.1, h.2.2.2.2 (by decide) (by decide)⟩

/-- C2 (amended): choosing "Extract Without Saving" issues exactly one
extract call carrying only the use-custom-schema flag and no
schema-persist call; the in-memory fields are left as they were and are
not transmitted, so the backend extracts with the last persisted
schema — custom if present, else the default. -/
theorem C2_extract_without_saving (s : EditorState) (defaultSchema : Json)
    (saved : Option Json) :
    (resolve s .extractWithoutSaving).calls = [.extract s.folderId s.filename true] ∧
    ((resolve s .extractWithoutSaving).calls.all (fun c => !c.isPutSchema)) = true ∧
    (resolve s .extractWithoutSaving).state.fields = s.fields ∧
    schemaUsedForExtract defaultSchema saved true = saved.getD defaultSchema :=
  ⟨rfl, rfl, rfl, rfl⟩

/-- C2 counterexample: an editor whose saved schema is the default five
fields and whose in-memory (unsaved) schema adds a sixth field; the
"Extract Without Saving" resolution issues the extract call, and the
schema the backend then uses differs from the in-memory schema — the
extraction is not performed with the unsaved schema. -/
theorem C2_counterexample :
    (resolve (EditorState.mk "f1" "doc.pdf"
        (DEFAULT_FIELDS ++ [⟨"category", "string", "Expense category", false⟩])
        true true true) .extractWithoutSaving).calls =
      [.extract "f1" "doc.pdf" true] ∧
    schemaUsedForExtract (Json.obj []) (some (fieldsToJsonSchema DEFAULT_FIELDS)) true ≠
      fieldsToJsonSchema
        (EditorState.mk "f1" "doc.pdf"
          (DEFAULT_FIELDS ++ [⟨"category", "string", "Expense category", false⟩])
          true true true).fields := by
  refine ⟨rfl, ?_⟩
  intro hcontra
  have hnames := congrArg itemPropNames hcontra
  have : itemPropNames (schemaUsedForExtract (Json.obj [])
      (some (fieldsToJsonSchema DEFAULT_FIELDS)) true) ≠
      itemPropNames (fieldsToJsonSchema
        (DEFAULT_FIELDS ++ [⟨"category", "string", "Expense category", false⟩])) := by
    decide
  exact this hnames

/-- C8: the extract flow issues no parse call — not from a direct
extract, not from any of the three save-prompt resolutions — and the
modelled backend extract leaves the cached parse artifact untouched,
failing rather than parsing when no artifact exists. -/
theorem C8_extract_never_parses (s : EditorState) (r : Resolution)
    (defaultSchema : Json) (b : BackendDoc) (u : Bool) :
    ((handleExtract s).calls.all (fun c => !c.isParseCall)) = true ∧
    ((resolve s r).calls.all (fun c => !c.isParseCall)) = true ∧
    ((handleSave s).calls.all (fun c => !c.isParseCall)) = true ∧
    (serveExtract defaultSchema b u).1.parseCache = b.parseCache ∧
    (b.parseCache = none → (serveExtract defaultSchema b u).2 = false) := by
  have hsave : ∀ t : EditorState,
      ((handleSave t).calls.all (fun c => !c.isParseCall)) = true := by
    intro t
    unfold handleSave
    split_ifs <;> simp [ApiCall.isParseCall]
  refine ⟨?_, ?_, hsave s, ?_, ?_⟩
  · unfold handleExtract
    split_ifs <;> simp [ApiCall.isParseCall]
  · cases r
    · simp [resolve]
    · simp [resolve, ApiCall.isParseCall]
    · have h := hsave { s with showSavePrompt := false }
      simp only [resolve]
      rw [List.all_append, h]
      rfl
  · unfold serveExtract
    split <;> rfl
  · intro hnone
    unfold serveExtract
    rw [hnone]

/-- C8 witness: the no-parse facts at a concrete state, resolution and
backend document with no cached artifact. -/
theorem C8_extract_never_parses_witness :
    ((BackendDoc.mk none none none).parseCache = none) ∧
    (((handleExtract (EditorState.mk "f1" "doc.pdf" DEFAULT_FIELDS false false
        false)).calls.all (fun c => !c.isParseCall)) = true ∧
     (serveExtract (Json.obj []) (BackendDoc.mk none none none) true).2 = false) := by
  have h := C8_extract_never_parses
    (EditorState.mk "f1" "doc.pdf" DEFAULT_FIELDS false false false)
    .cancel (Json.obj []) (BackendDoc.mk none none none) true
  exact ⟨rfl, h.1, h.2.2.2.2 rfl⟩

/-! ## Fallback to the default field set -/

/-- A schema document is read as carrying an array-item shape when the
`properties.transactions.items.properties` chain resolves to a truthy
value with at least one enumerable entry — which a nonempty string or
array also has, via its index entries. -/
def hasItemShape (schema : Json) : Bool :=
  match (schema.get "properties").bind (fun p => p.get "transactions") with
  | none => false
  | some t =>
    t.truthy &&
      (match t.get "items" with
       | none => false
       | some items =>
         match items.get "properties" with
         | none => false
         | some itemProps => itemProps.truthy && !itemProps.entriesOf.isEmpty)

/-- C5 (amended): on every document whose
`properties.transactions.items.properties` chain fails — a link absent
or falsy, or the located value without enumerable entries —
`jsonSchemaToFields` returns `DEFAULT_FIELDS`, the five documented core
fields (transaction date, signed amount, balance, remarks, transaction
identifier), instead of failing; the returned default set is itself the
"using defaults" signal the caller receives.  A truthy non-object with
index entries (a nonempty string or array) is instead enumerated and
yields synthesized index-named fields, not the defaults. -/
theorem C5_malformed_falls_back (d : Json) (h : hasItemShape d = false) :
    jsonSchemaToFields d = DEFAULT_FIELDS ∧
      DEFAULT_FIELDS.map (fun f => f.name) =
        ["date", "amount", "balance", "remarks", "transactionId"] := by
  refine ⟨?_, by decide⟩
  unfold hasItemShape at h
  unfold jsonSchemaToFields
  split
  · rfl
  · rename_i t heq
    rw [heq] at h
    dsimp only at h
    by_cases htr : t.truthy
    · rw [if_neg (by simp [htr])]
      rw [htr, Bool.true_and] at h
      split
      · rfl
      · rename_i items heq2
        rw [heq2] at h
        dsimp only at h
        split
        · rfl
        · rename_i itemProps heq3
          rw [heq3] at h
          dsimp only at h
          by_cases hipt : itemProps.truthy
          · rw [if_neg (by simp [hipt])]
            rw [hipt, Bool.true_and] at h
            have hnil : itemProps.entriesOf = [] :=
              List.isEmpty_iff.mp (by simpa using h)
            simp [hnil]
          · rw [if_pos (by simp [hipt])]
    · rw [if_pos (by simp [htr])]

/-- C5 counterexample: a malformed document whose `items.properties` is
the array `["x"]` — not an object of named properties — does not fall
back to the defaults: enumeration of the array's index entries yields a
single synthesized field named `"0"`. -/
theorem C5_malformed_counterexample :
    jsonSchemaToFields (Json.obj [("properties", Json.obj
      [("transactions", Json.obj [("items", Json.obj
        [("properties", Json.arr [Json.str "x"])])])])]) =
      [⟨"0", "string", "", false⟩] ∧
    jsonSchemaToFields (Json.obj [("properties", Json.obj
      [("transactions", Json.obj [("items", Json.obj
        [("properties", Json.arr [Json.str "x"])])])])]) ≠ DEFAULT_FIELDS := by
  decide

/-- C5 witness: a document whose `items.properties` key is absent falls
back to the five default fields. -/
theorem C5_malformed_falls_back_witness :
    hasItemShape (Json.obj [("properties", Json.obj
      [("transactions", Json.obj [("type", Json.str "array")])])]) = false ∧
    jsonSchemaToFields (Json.obj [("properties", Json.obj
      [("transactions", Json.obj [("type", Json.str "array")])])]) = DEFAULT_FIELDS :=
  ⟨by decide,
    (C5_malformed_falls_back (Json.obj [("properties", Json.obj
      [("transactions", Json.obj [("type", Json.str "array")])])]) (by decide)).1⟩

/-! ## Grounding overlay (`Preview.tsx`)

The overlay container is sized to the rendered page (`dims.width` ×
`dims.height`); each box is positioned with CSS percentages
`left: (box.left*100)%` and so on, and a percentage resolves against
the container dimension as `p / 100 * length`. -/

structure BoundingBox where
  left : ℚ
  top : ℚ
  right : ℚ
  bottom : ℚ

/-- CSS percentage resolution against a container length. -/
def percentToPx (p len : ℚ) : ℚ := p / 100 * len

/-- The pixel rectangle (left, top, width, height) the overlay style
produces for a chunk's normalized box on a page rendered at `w × h`. -/
def resolveOverlayBox (box : BoundingBox) (w h : ℚ) : ℚ × ℚ × ℚ × ℚ :=
  ( percentToPx (box.left * 100) w,
    percentToPx (box.top * 100) h,
    percentToPx ((box.right - box.left) * 100) w,
    percentToPx ((box.bottom - box.top) * 100) h )

/-- C6: for every grounding box with coordinates in [0,1], left ≤ right
and top ≤ bottom, the overlay rectangle on a page rendered at `w × h`
is exactly (left·w, top·h, (right−left)·w, (bottom−top)·h); in
particular box (0.1, 0.2, 0.4, 0.3) at 800×1000 resolves to
(80, 200, 240, 100). -/
theorem C6_overlay_box (box : BoundingBox) (w h : ℚ)
    (h0l : 0 ≤ box.left) (h0t : 0 ≤ box.top)
    (hlr : box.left ≤ box.right) (htb : box.top ≤ box.bottom)
    (hr1 : box.right ≤ 1) (hb1 : box.bottom ≤ 1) :
    resolveOverlayBox box w h =
      ( box.left * w, box.top * h,
        (box.right - box.left) * w, (box.bottom - box.top) * h ) ∧
    resolveOverlayBox ⟨1/10, 2/10, 4/10, 3/10⟩ 800 1000 = (80, 200, 240, 100) := by
  constructor
  · unfold resolveOverlayBox percentToPx
    simp only [Prod.mk.injEq]
    refine ⟨by ring, by ring, by ring, by ring⟩
  · unfold resolveOverlayBox percentToPx
    norm_num

/-- C6 witness: the concrete grounding example from the spec. -/
theorem C6_overlay_box_witness :
    resolveOverlayBox ⟨1/10, 2/10, 4/10, 3/10⟩ 800 1000 = (80, 200, 240, 100) :=
  (C6_overlay_box ⟨1/10, 2/10, 4/10, 3/10⟩ 800 1000 (by norm_num) (by norm_num)
    (by norm_num) (by norm_num) (by norm_num) (by norm_num)).2

/-! ## Status probes and derivation (`api.ts`, `FolderWorkspace`) -/

inductive ProcessingStatus where
  | idle
  | parsing
  | parsed
  | extracted
  | error
  deriving Repr, DecidableEq

/-- `isProcessed`: HEAD the processed CSV download; a 200 response means
extracted, any thrown error is caught and reported as `false`. -/
def isProcessedResult (resp : Except String Nat) : Bool :=
  match resp with
  | .ok status => status == 200
  | .error _ => false

/-- `isParsed`: GET the file metadata; `has_markdown === true` means
parsed, any thrown error is caught and reported as `false`. -/
def isParsedResult (resp : Except String Json) : Bool :=
  match resp with
  | .ok data =>
    match data.get "has_markdown" with
    | some (.bool true) => true
    | _ => false
  | .error _ => false

/-- `fetchFolderDetails`: extracted if the CSV probe succeeds, else
parsed if the metadata probe reports markdown, else idle. -/
def deriveFileStatus (procResp : Except String Nat)
    (metaResp : Except String Json) : ProcessingStatus :=
  if isProcessedResult procResp then .extracted
  else if isParsedResult metaResp then .parsed
  else .idle

/-- Modelled from the spec: the backend endpoints behind the two probes
(`backend/app/routers/process.py`) are not among the frontend sources.
Per §6 the processed-CSV download responds 200 exactly when the
extraction output exists, and the metadata endpoint reports
`has_markdown` exactly when the cached parse artifact exists. -/
structure DocArtifacts where
  extractionResult : Bool
  parseArtifact : Bool

def serveHeadDownload (a : DocArtifacts) : Except String Nat :=
  if a.extractionResult then .ok 200 else .error "404 Not Found"

def serveMetadata (a : DocArtifacts) : Except String Json :=
  if a.parseArtifact then
    .ok (Json.obj [("has_markdown", Json.bool true)])
  else
    .error "404 Not Found"

/-- C7: for a document not mid-operation, the derived status is
`extracted` when an extraction result exists, else `parsed` when a
parse artifact exists, else `idle`. -/
theorem C7_status_derivation (extractionResult parseArtifact : Bool) :
    deriveFileStatus (serveHeadDownload ⟨extractionResult, parseArtifact⟩)
        (serveMetadata ⟨extractionResult, parseArtifact⟩) =
      (if extractionResult then .extracted
       else if parseArtifact then .parsed
       else .idle) := by
  cases extractionResult <;> cases parseArtifact <;> rfl

/-- C10: when the underlying probe request fails, `isProcessed` and
`isParsed` report `false` instead of propagating the error, and the
derived status is `idle`. -/
theorem C10_probe_failure_reports_false (errA errB : String) :
    isProcessedResult (.error errA) = false ∧
    isParsedResult (.error errB) = false ∧
    deriveFileStatus (.error errA) (.error errB) = .idle :=
  ⟨rfl, rfl, rfl⟩

/-! ## Amount normalizer

Modelled from the spec: the `Transaction` model with its
`normalize_transaction_amount` validator lives in
`backend/app/routers/process.py`, which is not among the sources; the
definitions below follow §4.2 of the spec and the repository docs
("separate columns: credit_amount + debit_amount → signed output",
output `"+100.00"` / `"-50.00"`). -/

def splitOnChar (c : Char) : List Char → List (List Char)
  | [] => [[]]
  | x :: xs =>
    let rest := splitOnChar c xs
    if x == c then [] :: rest
    else
      match rest with
      | [] => [[x]]
      | r :: rs => (x :: r) :: rs

/-- Modelled from the spec: magnitude parsing tolerates thousands
separators and accepts up to two decimal digits; an unparseable
magnitude is reported, not coerced to zero.  The result is the amount
in cents. -/
def parseCents (s : String) : Option Nat :=
  match splitOnChar '.' (s.toList.filter (fun c => c != ',')) with
  | [intPart] => (digitsToNat? intPart).map (fun n => n * 100)
  | [intPart, fracPart] =>
    match digitsToNat? intPart, digitsToNat? fracPart with
    | some iv, some fv =>
      if fracPart.length == 1 then some (iv * 100 + fv * 10)
      else if fracPart.length == 2 then some (iv * 100 + fv)
      else none
    | _, _ => none
  | _ => none

def twoDigits (n : Nat) : String :=
  String.mk [Nat.digitChar (n / 10 % 10), Nat.digitChar (n % 10)]

/-- Render cents as a decimal magnitude with exactly two decimal
places. -/
def centsToString (c : Nat) : String :=
  Nat.repr (c / 100) ++ "." ++ twoDigits (c % 100)

/-- Modelled from the spec: the split-columns branch of the amount
normalizer — populated credit → leading `+`, populated debit → leading
`-`, both or neither populated → ambiguous-transaction error. -/
def normalizeSplitAmount (credit debit : String) : Except String String :=
  if credit != "" && debit != "" then
    .error "ambiguous transaction: both credit and debit amounts populated"
  else if credit == "" && debit == "" then
    .error "ambiguous transaction: neither credit nor debit amount populated"
  else if credit != "" then
    match parseCents credit with
    | some c => .ok ("+" ++ centsToString c)
    | none => .error ("could not parse amount: " ++ credit)
  else
    match parseCents debit with
    | some c => .ok ("-" ++ centsToString c)
    | none => .error ("could not parse amount: " ++ debit)

/-- C9: split-column normalization — exactly the credit populated gives
the magnitude with a leading `+` and two decimal places, exactly the
debit populated gives a leading `-`, and both populated or both empty
is reported as an ambiguous-transaction error, never a silent
default. -/
theorem C9_split_columns (credit debit : String) :
    (credit ≠ "" → debit = "" → ∀ c, parseCents credit = some c →
      normalizeSplitAmount credit debit = .ok ("+" ++ centsToString c)) ∧
    (credit = "" → debit ≠ "" → ∀ c, parseCents debit = some c →
      normalizeSplitAmount credit debit = .ok ("-" ++ centsToString c)) ∧
    (credit ≠ "" → debit ≠ "" →
      normalizeSplitAmount credit debit =
        .error "ambiguous transaction: both credit and debit amounts populated") ∧
    (credit = "" → debit = "" →
      normalizeSplitAmount credit debit =
        .error "ambiguous transaction: neither credit nor debit amount populated") := by
  refine ⟨?_, ?_, ?_, ?_⟩
  · intro hc hd c hparse
    simp [normalizeSplitAmount, hc, hd, hparse]
  · intro hc hd c hparse
    simp [normalizeSplitAmount, hc, hd, hparse]
  · intro hc hd
    simp [normalizeSplitAmount, hc, hd]
  · intro hc hd
    simp [normalizeSplitAmount, hc, hd]

/-- C9 witness: the spec's split-column vectors. -/
theorem C9_split_columns_witness :
    normalizeSplitAmount "100.00" "" = .ok "+100.00" ∧
    normalizeSplitAmount "" "50.00" = .ok "-50.00" ∧
    normalizeSplitAmount "100.00" "50.00" =
      .error "ambiguous transaction: both credit and debit amounts populated" ∧
    normalizeSplitAmount "" "" =
      .error "ambiguous transaction: neither credit nor debit amount populated" := by
  have h1 := (C9_split_columns "100.00" "").1 (by decide) rfl 10000 (by decide)
  have h2 := (C9_split_columns "" "50.00").2.1 rfl (by decide) 5000 (by decide)
  have h3 := (C9_split_columns "100.00" "50.00").2.2.1 (by decide) (by decide)
  have h4 := (C9_split_columns "" "").2.2.2 rfl rfl
  exact ⟨h1, h2, h3, h4⟩

end FinSight
